import Mathlib

/-
Shallow embedding of the `censor` message-moderation plugin (src/main.py) and
proofs of the specification claims about it.

The plugin's mutable state is the pair (nlp_api_key, checked_messages); the
dedup cache `checked_messages` is a Python dict from a fingerprint string to
`True`.  A Python dict iterates its keys in insertion order and re-inserting a
present key keeps its position, so the cache is embedded as the insertion-
ordered list of its keys.  The MD5 hex digest, the HTTP endpoint and the local
file system are external effects; they are embedded as an environment of pure
oracles (`Env`).  Every network/retraction interaction of a handler run is
recorded in an event trace (`CallEvent`), which makes the ordering and
short-circuit claims statable.
-/

set_option maxHeartbeats 1000000

namespace Censor

/-- Source line 23: `self.max_cache_size = 1000`. -/
def maxCacheSize : Nat := 1000

variable {α : Type} [DecidableEq α]

/-- Dict insertion `self.checked_messages[message_hash] = True` (line 90).
If the key is already present the dict (hence its key order) is unchanged,
otherwise the key is appended at the end of the insertion order. -/
def cacheInsert (c : List α) (h : α) : List α :=
  if h ∈ c then c else c ++ [h]

/-- Source `_is_already_checked` (lines 84-86): `message_hash in self.checked_messages`. -/
def is_already_checked (c : List α) (h : α) : Bool :=
  decide (h ∈ c)

/-- Source `_mark_as_checked` (lines 88-97): insert the fingerprint, then if the size
exceeds `max_cache_size`, delete the first `max_cache_size // 2` keys in
insertion order (`list(self.checked_messages.keys())[:self.max_cache_size // 2]`). -/
def mark_as_checked (c : List α) (h : α) : List α :=
  let c1 := cacheInsert c h
  if c1.length > maxCacheSize then c1.drop (maxCacheSize / 2) else c1

/-- The cache reached by a sequence of `mark_as_checked` calls from the
initially empty cache (`self.checked_messages = {}`, line 22). -/
def markRun (fs : List α) : List α :=
  fs.foldl mark_as_checked []

/-- Total number of keys evicted over a run of `n` insertions of pairwise
distinct fingerprints into the initially empty cache: the cache evicts
`maxCacheSize / 2 = 500` keys each time its size reaches `maxCacheSize + 1 = 1001`,
which first happens at the 1001st insertion and then every 500 insertions. -/
def evictOffset (n : Nat) : Nat :=
  500 * ((n - 501) / 500)

/-- Outcome of one HTTP POST to the classification endpoint, as observed by the
plugin code.  `response status body` is a completed HTTP exchange; `body` is
`some raw` when the JSON body has the expected
`choices[0]["message"]["content"]` shape with string content `raw`, and `none`
when that access raises (malformed response).  `timeout` models
`asyncio.TimeoutError`; `netError` models any other raised exception. -/
inductive NetResult where
  | timeout : NetResult
  | netError : String → NetResult
  | response : Nat → Option String → NetResult
deriving DecidableEq

/-- One observable action of a handler run: computing the fingerprint
(line 53), marking it (line 58), a text-classification POST (lines 143-147), an
image-classification POST (lines 224-228), or invoking `_recall_message`
(line 68). -/
inductive CallEvent where
  | hashCall : String → CallEvent
  | mark : String → CallEvent
  | textCall : String → CallEvent
  | imageCall : String → CallEvent
  | retract : CallEvent
deriving DecidableEq

def CallEvent.isImageCall : CallEvent → Bool
  | CallEvent.imageCall _ => true
  | _ => false

/-- An image message segment.  `url = some u` means the object has a `url`
attribute holding string `u` (`hasattr(image, 'url')` true); `none` means the
attribute is absent; likewise `path`.  An attribute holding Python `None` is
represented by the empty string, which the code treats identically
(`if not image_url`). -/
structure ImageSeg where
  url : Option String
  path : Option String
deriving DecidableEq

/-- One entry of the message chain: a `Text` component (with its `str(msg)`
rendering), an `Image` component, or any other component type, which both the
fingerprint and the detector ignore. -/
inductive MsgSeg where
  | textSeg : String → MsgSeg
  | imageSeg : ImageSeg → MsgSeg
  | otherSeg : MsgSeg
deriving DecidableEq

/-- The external world, embedded as pure oracles: `hashFn` models
`hashlib.md5(content.encode()).hexdigest()` (any fixed digest function);
`textNet` is the endpoint's answer to the text-moderation request built from a
given text; `imageNet` is its answer to the image-moderation request built from
a given resolved image reference; `readFile` models `open(path,'rb').read()`,
`none` being a raised I/O error. -/
structure Env where
  hashFn : String → String
  textNet : String → NetResult
  imageNet : String → NetResult
  readFile : String → Option String

/-- The inbound event surface used by the handler: `event.message_str` and
`event.get_messages()`. -/
structure Event where
  messageStr : String
  chain : List MsgSeg
deriving DecidableEq

/-- The plugin's mutable state after `initialize`: the configured key and the
dedup cache (as its insertion-ordered key list). -/
structure PluginState where
  nlp_api_url : String
  nlp_api_key : String
  checked_messages : List String
deriving DecidableEq

/-- Content accumulation of `_get_message_hash` (lines 74-80): start from
`message_str`, append `str(msg)` for `Text` segments and the constant
`"image"` for `Image` segments; other segment types contribute nothing. -/
def messageContent (messageStr : String) (chain : List MsgSeg) : String :=
  chain.foldl
    (fun acc m =>
      match m with
      | MsgSeg.textSeg s => acc ++ s
      | MsgSeg.imageSeg _ => acc ++ "image"
      | MsgSeg.otherSeg => acc)
    messageStr

/-- Source `_get_message_hash` (lines 72-82): the digest of the accumulated content. -/
def get_message_hash (env : Env) (messageStr : String) (chain : List MsgSeg) : String :=
  env.hashFn (messageContent messageStr chain)

/-- Reason extraction `content.split("\n")[1] if "\n" in content else fallback` (lines 154, 235).
`"\n" in content` is single-character substring containment, i.e. `contains`
on the newline character; when it holds, `splitOn` has a second element, so the
`getD` default is never produced from the guarded branch. -/
def extractReason (fallback content : String) : String :=
  if content.contains (Char.ofNat 10) then (content.splitOn "\n").getD 1 fallback
  else fallback

/-- Verdict parsing shared by lines 151-155 and 232-236: strip the reply,
answer positively iff it starts with `"YES"` after upcasing, taking the reason
from the second line when present, else the given fallback. -/
def parseReply (fallback content : String) : Bool × String :=
  let c := content.trim
  if (c.toUpper.startsWith "YES") = true then (true, extractReason fallback c)
  else (false, "")

/-- The response-handling part of either classifier call, inside its
`try` block (lines 148-158 resp. 229-237): a timeout or other exception
propagates (as `Except.error`, to be caught by the surrounding handler), a
body of unexpected shape raises a lookup error, a non-200 status only logs,
falling through to the negative verdict. -/
def runNet (fallback : String) (net : NetResult) : Except String (Bool × String) :=
  match net with
  | NetResult.timeout => Except.error "TimeoutError"
  | NetResult.netError e => Except.error e
  | NetResult.response status body =>
    if status = 200 then
      match body with
      | none => Except.error "KeyError"
      | some raw => Except.ok (parseReply fallback raw)
    else Except.ok (false, "")

/-- The `except` clauses of both classifiers (lines 160-165, 239-244): any
raised error is logged and converted to the negative verdict. -/
def catchNeg (r : Except String (Bool × String)) : Bool × String :=
  match r with
  | Except.ok v => v
  | Except.error _ => (false, "")

/-- Blank test `if not text.strip()` (line 118): the text is blank exactly when stripping
whitespace from both ends leaves the empty string, i.e. when every character
is whitespace. -/
def isBlank (text : String) : Bool :=
  text.data.all Char.isWhitespace

/-- Source `_ai_check_text` (lines 115-165): blank text short-circuits to the negative
verdict with no network call; otherwise one POST is made and its outcome
parsed, with all exceptions caught.  The second component is the trace of
network calls performed. -/
def ai_check_text (env : Env) (text : String) : (Bool × String) × List CallEvent :=
  if isBlank text = true then ((false, ""), [])
  else (catchNeg (runNet "AI 检测触发" (env.textNet text)), [CallEvent.textCall text])

/-- Lines 171-176: `image_url = image.url if hasattr(image,'url') else
(image.path if hasattr(image,'path') else None)` — the `url` attribute is
preferred whenever it exists, `path` is consulted only otherwise. -/
def resolveRef (img : ImageSeg) : Option String :=
  match img.url with
  | some u => some u
  | none => img.path

/-- Source `_ai_check_image` (lines 167-244): resolve the reference; a missing or
falsy reference yields the negative verdict with no network call; an
`http(s)` reference is sent directly; otherwise the local file is read (a read
failure yields the negative verdict with no network call) and sent encoded.
The response handling mirrors the text classifier with fallback reason
`"图片含违禁内容"`. -/
def ai_check_image (env : Env) (img : ImageSeg) : (Bool × String) × List CallEvent :=
  match resolveRef img with
  | none => ((false, ""), [])
  | some ref =>
    if ref = "" then ((false, ""), [])
    else if ref.startsWith "http://" || ref.startsWith "https://" then
      (catchNeg (runNet "图片含违禁内容" (env.imageNet ref)), [CallEvent.imageCall ref])
    else
      match env.readFile ref with
      | none => ((false, ""), [])
      | some _ =>
        (catchNeg (runNet "图片含违禁内容" (env.imageNet ref)), [CallEvent.imageCall ref])

/-- The image loop of `_ai_detect` (lines 107-111): check each `Image` segment
in chain order, returning the first positive verdict immediately; other
segment types are skipped. -/
def detectImages (env : Env) : List MsgSeg → (Bool × String) × List CallEvent
  | [] => ((false, ""), [])
  | MsgSeg.imageSeg img :: rest =>
    let r := ai_check_image env img
    if r.1.1 = true then r
    else
      let r2 := detectImages env rest
      (r2.1, r.2 ++ r2.2)
  | MsgSeg.textSeg _ :: rest => detectImages env rest
  | MsgSeg.otherSeg :: rest => detectImages env rest

/-- Source `_ai_detect` (lines 99-113): text check first, returning its verdict if
positive, else the image loop's result; all negative yields `(False, "")`. -/
def ai_detect (env : Env) (text : String) (chain : List MsgSeg) :
    (Bool × String) × List CallEvent :=
  let t := ai_check_text env text
  if t.1.1 = true then t
  else
    let r := detectImages env chain
    (r.1, t.2 ++ r.2)

/-- Source `on_message` (lines 41-70): an empty key returns immediately; then the
fingerprint is computed, an already-seen fingerprint returns immediately, an
unseen one is marked before `_ai_detect` runs, and a positive overall verdict
triggers `_recall_message`. -/
def on_message (env : Env) (st : PluginState) (ev : Event) :
    PluginState × List CallEvent :=
  if st.nlp_api_key = "" then (st, [])
  else
    let h := get_message_hash env ev.messageStr ev.chain
    if is_already_checked st.checked_messages h = true then
      (st, [CallEvent.hashCall h])
    else
      let cache := mark_as_checked st.checked_messages h
      let d := ai_detect env ev.messageStr ev.chain
      if d.1.1 = true then
        ({ st with checked_messages := cache },
          CallEvent.hashCall h :: CallEvent.mark h :: d.2 ++ [CallEvent.retract])
      else
        ({ st with checked_messages := cache },
          CallEvent.hashCall h :: CallEvent.mark h :: d.2)

/-- The image segments of a chain, in order. -/
def imagesOf (chain : List MsgSeg) : List ImageSeg :=
  chain.filterMap
    (fun m =>
      match m with
      | MsgSeg.imageSeg i => some i
      | _ => none)

/-- Modelled from the spec: "the orchestrator's overall verdict is the first
positive among: text check, then each image check in message order", and
negative with empty reason when no check is positive. -/
def overallVerdictSpec (env : Env) (text : String) (chain : List MsgSeg) :
    Bool × String :=
  (((ai_check_text env text).1 ::
      (imagesOf chain).map (fun i => (ai_check_image env i).1)).find?
    (fun v => v.1)).getD (false, "")

/-- The concatenated network traces of checking each listed image. -/
def imageTraces (env : Env) (imgs : List ImageSeg) : List CallEvent :=
  imgs.foldr (fun i acc => (ai_check_image env i).2 ++ acc) []

/-- The image loop restricted to the image segments themselves: proof device
relating `detectImages` to scans of `imagesOf chain`. -/
def imageScan (env : Env) : List ImageSeg → (Bool × String) × List CallEvent
  | [] => ((false, ""), [])
  | img :: rest =>
    let r := ai_check_image env img
    if r.1.1 = true then r
    else
      let r2 := imageScan env rest
      (r2.1, r.2 ++ r2.2)

/-- Fixture for witnesses: an environment whose digest is the identity and
whose endpoint always answers `"NO"` with status 200. -/
def envW : Env :=
  { hashFn := fun s => s
    textNet := fun _ => NetResult.response 200 (some "NO")
    imageNet := fun _ => NetResult.response 200 (some "NO")
    readFile := fun _ => none }

/-- Fixture for witnesses: a configured plugin state with an empty cache. -/
def stW : PluginState :=
  { nlp_api_url := "https://api.openai.com/v1/chat/completions"
    nlp_api_key := "key"
    checked_messages := [] }

/-- Fixture for witnesses: an unconfigured plugin state. -/
def stNoKey : PluginState :=
  { nlp_api_url := "https://api.openai.com/v1/chat/completions"
    nlp_api_key := ""
    checked_messages := [] }

/-- Fixture for witnesses: a one-image message event. -/
def evW : Event :=
  { messageStr := "hi"
    chain := [MsgSeg.imageSeg { url := some "http://a/x.png", path := none }] }

/-- The failure modes of one classification exchange covered by C5: a raised
timeout, any other raised transport error, a completed exchange with a non-200
status, or a 200 response whose body lacks the expected shape. -/
def badNet (net : NetResult) : Prop :=
  net = NetResult.timeout
  ∨ (∃ e, net = NetResult.netError e)
  ∨ (∃ s b, net = NetResult.response s b ∧ s ≠ 200)
  ∨ net = NetResult.response 200 none

/-- Fixture for the C5 witness: a text endpoint that times out and an image
endpoint that answers status 500 with a malformed body. -/
def envBad : Env :=
  { hashFn := fun s => s
    textNet := fun _ => NetResult.timeout
    imageNet := fun _ => NetResult.response 500 none
    readFile := fun _ => none }

/-- Fixture for the C2 witness: three images, the second classified positive. -/
def envSecondBad : Env :=
  { hashFn := fun s => s
    textNet := fun _ => NetResult.response 200 (some "NO")
    imageNet := fun ref =>
      if ref = "http://b" then NetResult.response 200 (some "YES\nbad image")
      else NetResult.response 200 (some "NO")
    readFile := fun _ => none }

/-- Fixture for the C2 witness: a chain with three image segments. -/
def chain3 : List MsgSeg :=
  [MsgSeg.imageSeg { url := some "http://a", path := none },
    MsgSeg.imageSeg { url := some "http://b", path := none },
    MsgSeg.imageSeg { url := some "http://c", path := none }]

theorem cacheInsert_length_le (c : List α) (h : α) :
    (cacheInsert c h).length ≤ c.length + 1 := by
  unfold cacheInsert
  split <;> simp

theorem mark_length_le (c : List α) (h : α) (hc : c.length ≤ maxCacheSize) :
    (mark_as_checked c h).length ≤ maxCacheSize := by
  unfold mark_as_checked
  have h1 := cacheInsert_length_le c h
  simp only [maxCacheSize] at *
  split
  · simp only [List.length_drop]
    omega
  · omega

theorem markRun_aux_length_le (fs : List α) :
    ∀ c : List α, c.length ≤ maxCacheSize →
      (fs.foldl mark_as_checked c).length ≤ maxCacheSize := by
  induction fs with
  | nil => intro c hc; simpa using hc
  | cons f fs ih =>
    intro c hc
    simpa using ih (mark_as_checked c f) (mark_length_le c f hc)

theorem markRun_length_le (fs : List α) : (markRun fs).length ≤ maxCacheSize := by
  unfold markRun
  exact markRun_aux_length_le fs [] (by simp)

theorem mem_mark_self_of_not_mem {c : List α} {h : α} (hm : h ∉ c) :
    h ∈ mark_as_checked c h := by
  unfold mark_as_checked cacheInsert
  simp only [if_neg hm]
  split
  · next hlen =>
    have hc : maxCacheSize / 2 ≤ c.length := by
      simp only [List.length_append, List.length_singleton, maxCacheSize] at hlen ⊢
      omega
    rw [List.drop_append_of_le_length hc]
    simp
  · simp

theorem mem_mark_self_of_length_le {c : List α} (h : α) (hc : c.length ≤ maxCacheSize) :
    h ∈ mark_as_checked c h := by
  by_cases hm : h ∈ c
  · unfold mark_as_checked cacheInsert
    simp only [if_pos hm]
    have : ¬ c.length > maxCacheSize := by omega
    simp [this, hm]
  · exact mem_mark_self_of_not_mem hm

theorem evictOffset_le (n : Nat) : evictOffset n ≤ n := by
  unfold evictOffset; omega

theorem evictOffset_size_le (n : Nat) : n - evictOffset n ≤ 1000 := by
  unfold evictOffset; omega

/-- Closed form of a run of marks of pairwise distinct fingerprints starting
from the empty cache: the cache is the input sequence with its first
`evictOffset` entries (the evicted ones) removed, in insertion order. -/
theorem markRun_eq_drop (fs : List α) (hnd : fs.Nodup) :
    markRun fs = fs.drop (evictOffset fs.length) := by
  unfold markRun
  induction fs using List.reverseRecOn with
  | nil => simp [evictOffset]
  | append_singleton gs x ih =>
    obtain ⟨hgs, -, hdisj⟩ := List.nodup_append.mp hnd
    have hx : x ∉ gs := fun hmem => hdisj hmem (List.mem_singleton_self x)
    rw [List.foldl_append, List.foldl_cons, List.foldl_nil, ih hgs]
    have hoff_le : evictOffset gs.length ≤ gs.length := evictOffset_le _
    have hsize : gs.length - evictOffset gs.length ≤ 1000 := evictOffset_size_le _
    have hx2 : x ∉ gs.drop (evictOffset gs.length) :=
      fun hmem => hx ((List.drop_sublist _ _).subset hmem)
    unfold mark_as_checked cacheInsert
    simp only [if_neg hx2]
    rw [← List.drop_append_of_le_length hoff_le]
    simp only [List.length_drop, List.length_append, List.length_singleton,
      maxCacheSize]
    split
    · next hgt =>
      rw [List.drop_drop]
      have harith : evictOffset gs.length + 1000 / 2 = evictOffset (gs.length + 1) := by
        unfold evictOffset at *
        omega
      rw [harith]
    · next hle =>
      have harith : evictOffset gs.length = evictOffset (gs.length + 1) := by
        unfold evictOffset at *
        omega
      rw [harith]

omit [DecidableEq α] in

theorem getElem_mem_drop (l : List α) (i m : Nat) (him : m ≤ i) (hi : i < l.length) :
    l[i] ∈ l.drop m := by
  have hj : i - m < (l.drop m).length := by
    simp only [List.length_drop]; omega
  have : (l.drop m)[i - m] = l[i] := by
    rw [List.getElem_drop]
    congr 1
    omega
  rw [← this]
  exact List.getElem_mem _

omit [DecidableEq α] in

theorem getElem_not_mem_drop_of_nodup (l : List α) (hnd : l.Nodup) (i m : Nat)
    (hlt : i < m) (hi : i < l.length) : l[i] ∉ l.drop m := by
  intro hmem
  obtain ⟨j, hj, hval⟩ := List.getElem_of_mem hmem
  rw [List.getElem_drop] at hval
  have hmj : m + j < l.length := by
    simp only [List.length_drop] at hj; omega
  have := (List.Nodup.getElem_inj_iff hnd).mp hval
  omega

theorem detectImages_eq_imageScan (env : Env) (chain : List MsgSeg) :
    detectImages env chain = imageScan env (imagesOf chain) := by
  induction chain with
  | nil => rfl
  | cons m rest ih =>
    cases m with
    | textSeg s => simpa [detectImages, imagesOf, List.filterMap_cons] using ih
    | otherSeg => simpa [detectImages, imagesOf, List.filterMap_cons] using ih
    | imageSeg img =>
      simp only [detectImages, imagesOf, List.filterMap_cons, imageScan] at *
      rw [ih]

theorem imageScan_verdict (env : Env) (imgs : List ImageSeg) :
    (imageScan env imgs).1 =
      ((imgs.map (fun i => (ai_check_image env i).1)).find? (fun v => v.1)).getD
        (false, "") := by
  induction imgs with
  | nil => rfl
  | cons img rest ih =>
    simp only [imageScan, List.map_cons, List.find?]
    by_cases hpos : (ai_check_image env img).1.1 = true
    · simp [hpos]
    · simp only [Bool.not_eq_true] at hpos
      simp [hpos, ih]

theorem imageScan_neg_reason (env : Env) (imgs : List ImageSeg)
    (hneg : (imageScan env imgs).1.1 = false) : (imageScan env imgs).1.2 = "" := by
  induction imgs with
  | nil => rfl
  | cons img rest ih =>
    simp only [imageScan] at hneg ⊢
    by_cases hpos : (ai_check_image env img).1.1 = true
    · simp [hpos] at hneg
    · simp only [Bool.not_eq_true] at hpos
      simp only [hpos, Bool.false_eq_true, if_false] at hneg ⊢
      exact ih hneg

theorem imageScan_shortcircuit (env : Env) (img : ImageSeg) (post : List ImageSeg) :
    ∀ pre : List ImageSeg, (∀ p ∈ pre, (ai_check_image env p).1.1 = false) →
      (ai_check_image env img).1.1 = true →
      imageScan env (pre ++ img :: post) =
        ((ai_check_image env img).1, imageTraces env pre ++ (ai_check_image env img).2) := by
  intro pre
  induction pre with
  | nil =>
    intro _ hpos
    simp [imageScan, hpos, imageTraces]
  | cons p pre ih =>
    intro hpre hpos
    have hp : (ai_check_image env p).1.1 = false := hpre p (by simp)
    have hrec := ih (fun q hq => hpre q (by simp [hq])) hpos
    simp only [List.cons_append, imageScan, hp, Bool.false_eq_true, if_false,
      List.append_eq]
    rw [hrec]
    simp [imageTraces]

theorem ai_check_text_no_imageCall (env : Env) (text : String) :
    ∀ e ∈ (ai_check_text env text).2, e.isImageCall = false := by
  unfold ai_check_text
  split
  · simp
  · simp [CallEvent.isImageCall]

theorem on_message_key_eq (env : Env) (st : PluginState) (ev : Event) :
    (on_message env st ev).1.nlp_api_key = st.nlp_api_key := by
  simp only [on_message]
  split
  · rfl
  · split
    · rfl
    · split <;> rfl

theorem on_message_of_seen (env : Env) (st : PluginState) (ev : Event)
    (hkey : ¬ st.nlp_api_key = "")
    (hseen : is_already_checked st.checked_messages
      (get_message_hash env ev.messageStr ev.chain) = true) :
    on_message env st ev =
      (st, [CallEvent.hashCall (get_message_hash env ev.messageStr ev.chain)]) := by
  unfold on_message
  rw [if_neg hkey, if_pos hseen]

theorem on_message_state_of_fresh (env : Env) (st : PluginState) (ev : Event)
    (hkey : ¬ st.nlp_api_key = "")
    (hfresh : is_already_checked st.checked_messages
      (get_message_hash env ev.messageStr ev.chain) = false) :
    (on_message env st ev).1 =
      { st with checked_messages :=
          (mark_as_checked st.checked_messages
            (get_message_hash env ev.messageStr ev.chain)) } := by
  unfold on_message
  rw [if_neg hkey, if_neg (by simp [hfresh])]
  by_cases hd : (ai_detect env ev.messageStr ev.chain).1.1 = true
  · rw [if_pos hd]
  · rw [if_neg hd]

theorem on_message_trace_of_fresh (env : Env) (st : PluginState) (ev : Event)
    (hkey : ¬ st.nlp_api_key = "")
    (hfresh : is_already_checked st.checked_messages
      (get_message_hash env ev.messageStr ev.chain) = false) :
    (on_message env st ev).2 =
      CallEvent.hashCall (get_message_hash env ev.messageStr ev.chain)
        :: CallEvent.mark (get_message_hash env ev.messageStr ev.chain)
        :: (ai_detect env ev.messageStr ev.chain).2
        ++ (if (ai_detect env ev.messageStr ev.chain).1.1 = true
            then [CallEvent.retract] else []) := by
  unfold on_message
  rw [if_neg hkey, if_neg (by simp [hfresh])]
  by_cases hd : (ai_detect env ev.messageStr ev.chain).1.1 = true
  · rw [if_pos hd, if_pos hd]
  · rw [if_neg hd, if_neg hd]
    simp

/-- C4: the cache-size bound is an invariant: every cache reachable by a
sequence of marks from the empty cache has at most `maxCacheSize = 1000`
entries after each mark returns, and whenever an insert makes the size exceed
the maximum, exactly the oldest `maxCacheSize / 2` entries in insertion order
are evicted in one pass. -/
theorem C4_cache_bound_invariant (fs : List Nat) (f : Nat) :
    (markRun fs).length ≤ maxCacheSize
    ∧ ((cacheInsert (markRun fs) f).length > maxCacheSize →
        mark_as_checked (markRun fs) f =
          (cacheInsert (markRun fs) f).drop (maxCacheSize / 2)) := by
  refine ⟨markRun_length_le fs, fun hgt => ?_⟩
  unfold mark_as_checked
  rw [if_pos hgt]

/-- C4 instantiated at a concrete run: after 3 marks of distinct fingerprints
the cache has at most 1000 entries, and an insert overflowing the maximum
drops the oldest 500 keys. -/
theorem C4_cache_bound_invariant_witness :
    (markRun [0, 1, 2]).length ≤ maxCacheSize
    ∧ ((cacheInsert (markRun [0, 1, 2]) 7).length > maxCacheSize →
        mark_as_checked (markRun [0, 1, 2]) 7 =
          (cacheInsert (markRun [0, 1, 2]) 7).drop (maxCacheSize / 2)) :=
  C4_cache_bound_invariant [0, 1, 2] 7

/-- C10: a mark is never evicted by the eviction it triggers: for every
reachable cache state (any mark sequence from the empty cache) and every
fingerprint `f`, `f` is present immediately after `mark` returns — the
eviction pass drops only the first `maxCacheSize / 2` keys in insertion order
of a cache of more than `maxCacheSize` entries, and the just-inserted key sits
after that prefix. -/
theorem C10_mark_never_self_evicted (fs : List Nat) (f : Nat) :
    f ∈ mark_as_checked (markRun fs) f :=
  mem_mark_self_of_length_le f (markRun_length_le fs)

/-- C10 instantiated at a concrete reachable cache and fingerprint. -/
theorem C10_mark_never_self_evicted_witness :
    9 ∈ mark_as_checked (markRun [0, 1, 2]) 9 :=
  C10_mark_never_self_evicted [0, 1, 2] 9

/-- C3 as stated is false: it claims that after marking `maxCacheSize + k`
distinct fingerprints, for every `k > 0`, all fingerprints inserted after the
first `maxCacheSize / 2` are still present.  At `k = 501` the run triggers a
second eviction pass, which removes the 501st through 1000th inserted
fingerprints as well: marking the 1501 distinct fingerprints `0,…,1500` leaves
a cache in which fingerprint `500` (inserted 501st, i.e. "later-inserted") is
absent. -/
theorem C3_counterexample :
    (List.range (maxCacheSize + 501)).length = maxCacheSize + 501
    ∧ (List.range (maxCacheSize + 501)).Nodup
    ∧ ¬ (∀ i, maxCacheSize / 2 ≤ i →
          ∀ (hi : i < (List.range (maxCacheSize + 501)).length),
            (List.range (maxCacheSize + 501))[i] ∈
              markRun (List.range (maxCacheSize + 501))) := by
  refine ⟨by simp, List.nodup_range _, fun hall => ?_⟩
  have h500 : (500 : Nat) < (List.range (maxCacheSize + 501)).length := by
    simp [maxCacheSize]
  have hmem := hall 500 (by simp [maxCacheSize]) h500
  have hclosed : markRun (List.range (maxCacheSize + 501)) =
      (List.range (maxCacheSize + 501)).drop 1000 := by
    rw [markRun_eq_drop _ (List.nodup_range _)]
    have hoff : evictOffset (List.range (maxCacheSize + 501)).length = 1000 := by
      simp only [List.length_range, maxCacheSize]
      unfold evictOffset
      omega
    rw [hoff]
  rw [hclosed] at hmem
  exact getElem_not_mem_drop_of_nodup _ (List.nodup_range _) 500 1000 (by omega) h500 hmem

/-- C3 (amended): starting from the empty cache with `maxCacheSize = 1000`,
for every `k` with `0 < k ≤ maxCacheSize / 2`, after marking
`maxCacheSize + k` distinct fingerprints the cache holds at most
`maxCacheSize` entries, the `maxCacheSize / 2` earliest-inserted fingerprints
are no longer present, and all later-inserted fingerprints are present.
(For `k > maxCacheSize / 2` further eviction passes also remove
later-inserted fingerprints, which is why the original claim fails.) -/
theorem C3_cache_after_overflow_amended (fs : List Nat) (k : Nat)
    (hk0 : 0 < k) (hk : k ≤ maxCacheSize / 2)
    (hlen : fs.length = maxCacheSize + k) (hnd : fs.Nodup) :
    (markRun fs).length ≤ maxCacheSize
    ∧ (∀ i, i < maxCacheSize / 2 → ∀ (hi : i < fs.length), fs[i] ∉ markRun fs)
    ∧ (∀ i, maxCacheSize / 2 ≤ i → ∀ (hi : i < fs.length), fs[i] ∈ markRun fs) := by
  simp only [maxCacheSize] at hk hlen
  have hoff : evictOffset fs.length = 500 := by
    rw [hlen]; unfold evictOffset; omega
  have hrm : markRun fs = fs.drop 500 := by
    rw [markRun_eq_drop fs hnd, hoff]
  refine ⟨?_, ?_, ?_⟩
  · rw [hrm]
    simp only [List.length_drop, hlen, maxCacheSize]
    omega
  · intro i hi500 hi
    rw [hrm]
    exact getElem_not_mem_drop_of_nodup fs hnd i 500
      (by simpa [maxCacheSize] using hi500) hi
  · intro i hi500 hi
    rw [hrm]
    exact getElem_mem_drop fs i 500 (by simpa [maxCacheSize] using hi500) hi

/-- C3 (amended) instantiated at `k = 1` with fingerprints `0,…,1000`:
all hypotheses hold and the amended conclusion follows. -/
theorem C3_cache_after_overflow_amended_witness :
    0 < 1 ∧ 1 ≤ maxCacheSize / 2 ∧ (List.range 1001).length = maxCacheSize + 1
    ∧ (List.range 1001).Nodup
    ∧ ((markRun (List.range 1001)).length ≤ maxCacheSize
      ∧ (∀ i, i < maxCacheSize / 2 → ∀ (hi : i < (List.range 1001).length),
          (List.range 1001)[i] ∉ markRun (List.range 1001))
      ∧ (∀ i, maxCacheSize / 2 ≤ i → ∀ (hi : i < (List.range 1001).length),
          (List.range 1001)[i] ∈ markRun (List.range 1001))) :=
  ⟨Nat.one_pos, by simp [maxCacheSize], by simp [maxCacheSize], List.nodup_range _,
    C3_cache_after_overflow_amended (List.range 1001) 1 Nat.one_pos
      (by simp [maxCacheSize]) (by simp [maxCacheSize]) (List.nodup_range _)⟩

/-- C7: with an empty configured credential the handler returns immediately on
every inbound message: no fingerprint is computed, no classifier call is made,
no retraction fires (the trace is empty), and the state is unchanged (the
component stays alive — the handler is total and returns normally). -/
theorem C7_disabled_when_unconfigured (env : Env) (st : PluginState) (ev : Event)
    (hkey : st.nlp_api_key = "") :
    on_message env st ev = (st, []) := by
  unfold on_message
  rw [if_pos hkey]

/-- C7 instantiated at a concrete unconfigured state and message. -/
theorem C7_disabled_when_unconfigured_witness :
    stNoKey.nlp_api_key = "" ∧ on_message envW stNoKey evW = (stNoKey, []) :=
  ⟨rfl, C7_disabled_when_unconfigured envW stNoKey evW rfl⟩

/-- C9: on an unseen message the handler marks the fingerprint strictly before
any classifier call: the trace starts with the fingerprint computation followed
immediately by the mark, every classifier call coming after, and the
fingerprint is in the cache when the handler returns for every environment —
in particular whatever the classification outcomes or failures are. -/
theorem C9_mark_before_classify (env : Env) (st : PluginState) (ev : Event)
    (hkey : ¬ st.nlp_api_key = "")
    (hfresh : is_already_checked st.checked_messages
      (get_message_hash env ev.messageStr ev.chain) = false) :
    (∃ rest, (on_message env st ev).2 =
        CallEvent.hashCall (get_message_hash env ev.messageStr ev.chain)
          :: CallEvent.mark (get_message_hash env ev.messageStr ev.chain) :: rest)
    ∧ get_message_hash env ev.messageStr ev.chain ∈
        (on_message env st ev).1.checked_messages := by
  constructor
  · exact ⟨_, on_message_trace_of_fresh env st ev hkey hfresh⟩
  · rw [on_message_state_of_fresh env st ev hkey hfresh]
    exact mem_mark_self_of_not_mem (by simpa [is_already_checked] using hfresh)

/-- C9 instantiated at a concrete fresh message. -/
theorem C9_mark_before_classify_witness :
    ¬ stW.nlp_api_key = ""
    ∧ is_already_checked stW.checked_messages
        (get_message_hash envW evW.messageStr evW.chain) = false
    ∧ ((∃ rest, (on_message envW stW evW).2 =
          CallEvent.hashCall (get_message_hash envW evW.messageStr evW.chain)
            :: CallEvent.mark (get_message_hash envW evW.messageStr evW.chain) :: rest)
      ∧ get_message_hash envW evW.messageStr evW.chain ∈
          (on_message envW stW evW).1.checked_messages) :=
  ⟨by decide, rfl, C9_mark_before_classify envW stW evW (by decide) rfl⟩

/-- C1: if the handler runs twice in succession on content with the same
fingerprint (and a configured key), the second run finds the fingerprint in the
dedup cache — the pure lookup returns `true` — and returns immediately: its
trace holds no text-classifier call, no image-classifier call and no
retraction (only the fingerprint computation), and the cache is unchanged, so
classification ran at most once, in the first invocation. -/
theorem C1_dedup_idempotent (env : Env) (st : PluginState) (e1 e2 : Event)
    (hkey : ¬ st.nlp_api_key = "")
    (hsame : get_message_hash env e2.messageStr e2.chain =
      get_message_hash env e1.messageStr e1.chain) :
    is_already_checked (on_message env st e1).1.checked_messages
        (get_message_hash env e2.messageStr e2.chain) = true
    ∧ on_message env (on_message env st e1).1 e2 =
        ((on_message env st e1).1,
          [CallEvent.hashCall (get_message_hash env e2.messageStr e2.chain)]) := by
  have hkey1 : ¬ (on_message env st e1).1.nlp_api_key = "" := by
    rw [on_message_key_eq]; exact hkey
  have hseen2 : is_already_checked (on_message env st e1).1.checked_messages
      (get_message_hash env e2.messageStr e2.chain) = true := by
    rw [hsame]
    cases hc : is_already_checked st.checked_messages
        (get_message_hash env e1.messageStr e1.chain) with
    | true =>
      rw [on_message_of_seen env st e1 hkey hc]
      exact hc
    | false =>
      rw [on_message_state_of_fresh env st e1 hkey hc]
      simp only [is_already_checked, decide_eq_true_eq]
      exact mem_mark_self_of_not_mem (by simpa [is_already_checked] using hc)
  exact ⟨hseen2, on_message_of_seen env _ e2 hkey1 hseen2⟩

/-- C1 instantiated: the same concrete message delivered twice; the second
delivery is a pure-lookup no-op. -/
theorem C1_dedup_idempotent_witness :
    ¬ stW.nlp_api_key = ""
    ∧ (is_already_checked (on_message envW stW evW).1.checked_messages
          (get_message_hash envW evW.messageStr evW.chain) = true
      ∧ on_message envW (on_message envW stW evW).1 evW =
          ((on_message envW stW evW).1,
            [CallEvent.hashCall (get_message_hash envW evW.messageStr evW.chain)])) :=
  ⟨by decide, C1_dedup_idempotent envW stW evW evW (by decide) rfl⟩

theorem catchNeg_runNet_badNet (fb : String) (net : NetResult) (hb : badNet net) :
    catchNeg (runNet fb net) = (false, "") := by
  rcases hb with h | ⟨e, h⟩ | ⟨st, b, h, hs⟩ | h
  · subst h; rfl
  · subst h; rfl
  · subst h
    simp only [runNet]
    rw [if_neg hs]
    rfl
  · subst h; rfl

/-- C5: for every classification call (text or image), a timed-out request,
any other transport exception, a non-200 status, or a malformed response body
yields the negative verdict `(false, "")`; no exception propagates to the
caller — in the embedding every raised error is absorbed by `catchNeg`, the
`except` clauses of the two clients, and the functions return normally. -/
theorem C5_fail_open (env : Env) (text : String) (img : ImageSeg)
    (ht : badNet (env.textNet text)) (hi : ∀ ref, badNet (env.imageNet ref)) :
    (ai_check_text env text).1 = (false, "")
    ∧ (ai_check_image env img).1 = (false, "") := by
  constructor
  · unfold ai_check_text
    split
    · rfl
    · simpa using catchNeg_runNet_badNet _ _ ht
  · unfold ai_check_image
    cases resolveRef img with
    | none => rfl
    | some ref =>
      simp only
      split
      · rfl
      · split
        · simpa using catchNeg_runNet_badNet _ _ (hi ref)
        · cases env.readFile ref with
          | none => rfl
          | some d => simpa using catchNeg_runNet_badNet _ _ (hi ref)

/-- C5 instantiated: a timed-out text call and a status-500 image call on a
concrete image both return the negative verdict. -/
theorem C5_fail_open_witness :
    badNet (envBad.textNet "hello")
    ∧ (∀ ref, badNet (envBad.imageNet ref))
    ∧ ((ai_check_text envBad "hello").1 = (false, "")
      ∧ (ai_check_image envBad { url := some "http://a/x.png", path := none }).1 =
          (false, "")) :=
  ⟨Or.inl rfl,
    fun _ => Or.inr (Or.inr (Or.inl ⟨500, none, rfl, by decide⟩)),
    C5_fail_open envBad "hello" { url := some "http://a/x.png", path := none }
      (Or.inl rfl) (fun _ => Or.inr (Or.inr (Or.inl ⟨500, none, rfl, by decide⟩)))⟩

/-- C6: on a 200 response to a non-blank text, a reply whose (stripped) content
begins with "YES" in any letter case yields a positive verdict, the reason
being the reply's second line when the reply contains a newline and the fixed
fallback string `"AI 检测触发"` otherwise; a reply not beginning with "YES"
yields the negative verdict with empty reason. -/
theorem C6_yes_reply_parsing (env : Env) (text raw : String)
    (hblank : isBlank text = false)
    (hnet : env.textNet text = NetResult.response 200 (some raw)) :
    (raw.trim.toUpper.startsWith "YES" = true →
        (ai_check_text env text).1.1 = true
        ∧ (raw.trim.contains (Char.ofNat 10) = true →
            (ai_check_text env text).1.2 = (raw.trim.splitOn "\n").getD 1 "AI 检测触发")
        ∧ (raw.trim.contains (Char.ofNat 10) = false →
            (ai_check_text env text).1.2 = "AI 检测触发"))
    ∧ (raw.trim.toUpper.startsWith "YES" = false →
        (ai_check_text env text).1 = (false, "")) := by
  have hval : (ai_check_text env text).1 = parseReply "AI 检测触发" raw := by
    unfold ai_check_text
    rw [if_neg (by simp [hblank]), hnet]
    rfl
  rw [hval]
  unfold parseReply extractReason
  constructor
  · intro hyes
    rw [if_pos hyes]
    refine ⟨rfl, fun hnl => ?_, fun hnl => ?_⟩
    · simp only [hnl, if_true]
    · simp only [hnl, Bool.false_eq_true, if_false]
  · intro hno
    rw [if_neg (by simp [hno])]

/-- C6 instantiated on the reply `"yes\nrude"`: positive verdict with reason
`"rude"`; the negative branch is exercised by the hypothesis shape itself. -/
theorem C6_yes_reply_parsing_witness :
    isBlank "bad words" = false
    ∧ (fun _ => NetResult.response 200 (some "yes\nrude") : String → NetResult)
        "bad words" = NetResult.response 200 (some "yes\nrude")
    ∧ (("yes\nrude".trim.toUpper.startsWith "YES" = true →
          (ai_check_text
              { hashFn := fun s => s
                textNet := fun _ => NetResult.response 200 (some "yes\nrude")
                imageNet := fun _ => NetResult.response 200 (some "NO")
                readFile := fun _ => none } "bad words").1.1 = true
          ∧ ("yes\nrude".trim.contains (Char.ofNat 10) = true →
              (ai_check_text
                  { hashFn := fun s => s
                    textNet := fun _ => NetResult.response 200 (some "yes\nrude")
                    imageNet := fun _ => NetResult.response 200 (some "NO")
                    readFile := fun _ => none } "bad words").1.2 =
                ("yes\nrude".trim.splitOn "\n").getD 1 "AI 检测触发")
          ∧ ("yes\nrude".trim.contains (Char.ofNat 10) = false →
              (ai_check_text
                  { hashFn := fun s => s
                    textNet := fun _ => NetResult.response 200 (some "yes\nrude")
                    imageNet := fun _ => NetResult.response 200 (some "NO")
                    readFile := fun _ => none } "bad words").1.2 = "AI 检测触发"))
      ∧ ("yes\nrude".trim.toUpper.startsWith "YES" = false →
          (ai_check_text
              { hashFn := fun s => s
                textNet := fun _ => NetResult.response 200 (some "yes\nrude")
                imageNet := fun _ => NetResult.response 200 (some "NO")
                readFile := fun _ => none } "bad words").1 = (false, ""))) :=
  ⟨by decide, rfl,
    C6_yes_reply_parsing
      { hashFn := fun s => s
        textNet := fun _ => NetResult.response 200 (some "yes\nrude")
        imageNet := fun _ => NetResult.response 200 (some "NO")
        readFile := fun _ => none } "bad words" "yes\nrude" (by decide) rfl⟩

/-- C8: the image classifier resolves the reference preferring the `url`
attribute whenever it is present, falling back to the `path` attribute only
when `url` is absent, and when neither attribute is present it returns the
negative verdict immediately with no network call (empty trace). -/
theorem C8_image_ref_resolution (env : Env) (img : ImageSeg) :
    (∀ u, img.url = some u → resolveRef img = some u)
    ∧ (img.url = none → resolveRef img = img.path)
    ∧ (img.url = none → img.path = none → ai_check_image env img = ((false, ""), [])) := by
  refine ⟨fun u hu => ?_, fun hu => ?_, fun hu hp => ?_⟩
  · unfold resolveRef
    rw [hu]
  · unfold resolveRef
    rw [hu]
  · unfold ai_check_image resolveRef
    rw [hu, hp]

/-- C8 instantiated at a concrete attribute-less image. -/
theorem C8_image_ref_resolution_witness :
    (∀ u, ({ url := none, path := none } : ImageSeg).url = some u →
        resolveRef { url := none, path := none } = some u)
    ∧ (({ url := none, path := none } : ImageSeg).url = none →
        resolveRef { url := none, path := none } =
          ({ url := none, path := none } : ImageSeg).path)
    ∧ (({ url := none, path := none } : ImageSeg).url = none →
        ({ url := none, path := none } : ImageSeg).path = none →
        ai_check_image envW { url := none, path := none } = ((false, ""), [])) :=
  C8_image_ref_resolution envW { url := none, path := none }

theorem detect_neg_reason (env : Env) (text : String) (chain : List MsgSeg)
    (hneg : (ai_detect env text chain).1.1 = false) :
    (ai_detect env text chain).1.2 = "" := by
  unfold ai_detect at *
  by_cases ht : (ai_check_text env text).1.1 = true
  · rw [if_pos ht] at hneg
    exact absurd hneg (by simp [ht])
  · rw [if_neg ht] at hneg ⊢
    simp only at hneg ⊢
    rw [detectImages_eq_imageScan] at hneg ⊢
    exact imageScan_neg_reason env _ hneg

/-- C2: the overall detection verdict is the first positive verdict in the
order text check, then each embedded image check in message order (negative
with empty reason when none is positive); when the text check is positive the
trace holds no image-classifier call at all; and when the text check is
negative and the first positive image check is preceded only by negative ones,
the trace ends at that image's calls — no later image is ever checked. -/
theorem C2_first_positive_ordering (env : Env) (text : String) (chain : List MsgSeg) :
    (ai_detect env text chain).1 = overallVerdictSpec env text chain
    ∧ ((ai_check_text env text).1.1 = true →
        ∀ e ∈ (ai_detect env text chain).2, e.isImageCall = false)
    ∧ (∀ pre img post, imagesOf chain = pre ++ img :: post →
        (ai_check_text env text).1.1 = false →
        (∀ p ∈ pre, (ai_check_image env p).1.1 = false) →
        (ai_check_image env img).1.1 = true →
        (ai_detect env text chain).2 =
          (ai_check_text env text).2 ++
            (imageTraces env pre ++ (ai_check_image env img).2))
    ∧ ((ai_detect env text chain).1.1 = false →
        (ai_detect env text chain).1.2 = "") := by
  refine ⟨?_, ?_, ?_, detect_neg_reason env text chain⟩
  · unfold ai_detect overallVerdictSpec
    by_cases ht : (ai_check_text env text).1.1 = true
    · rw [if_pos ht]
      simp [List.find?, ht]
    · rw [if_neg ht]
      simp only
      rw [detectImages_eq_imageScan, imageScan_verdict]
      have ht2 : (ai_check_text env text).1.1 = false := by
        simpa using ht
      simp [List.find?, ht2]
  · intro ht e he
    unfold ai_detect at he
    rw [if_pos ht] at he
    exact ai_check_text_no_imageCall env text e he
  · intro pre img post hsplit ht hpre himg
    unfold ai_detect
    rw [if_neg (by simp [ht])]
    simp only
    rw [detectImages_eq_imageScan, hsplit,
      imageScan_shortcircuit env img post pre hpre himg]

/-- C2 instantiated: a three-image message where the second image is positive;
the verdict is that image's, and the trace stops at its call. -/
theorem C2_first_positive_ordering_witness :
    (ai_detect envSecondBad "hi" chain3).1 = overallVerdictSpec envSecondBad "hi" chain3
    ∧ ((ai_check_text envSecondBad "hi").1.1 = true →
        ∀ e ∈ (ai_detect envSecondBad "hi" chain3).2, e.isImageCall = false)
    ∧ (∀ pre img post, imagesOf chain3 = pre ++ img :: post →
        (ai_check_text envSecondBad "hi").1.1 = false →
        (∀ p ∈ pre, (ai_check_image envSecondBad p).1.1 = false) →
        (ai_check_image envSecondBad img).1.1 = true →
        (ai_detect envSecondBad "hi" chain3).2 =
          (ai_check_text envSecondBad "hi").2 ++
            (imageTraces envSecondBad pre ++ (ai_check_image envSecondBad img).2))
    ∧ ((ai_detect envSecondBad "hi" chain3).1.1 = false →
        (ai_detect envSecondBad "hi" chain3).1.2 = "") :=
  C2_first_positive_ordering envSecondBad "hi" chain3

end Censor
